import Mathlib

set_option maxRecDepth 16384

/-!
Shallow embedding of the `NetworkDiscovery` class from `src/network-discovery.ts`
(local-subnet device discovery for a robot-vacuum control server).

Modelling conventions:
* JavaScript strings are Lean `String`s; the JavaScript string operations used by
  the source (`split` with a one-character separator, `toLowerCase`,
  `substring`, `startsWith`, template-literal indexing where an out-of-range
  array access stringifies to `"undefined"`, `parseInt` on decimal text) are
  defined structurally over `String.data` so that they reduce in the kernel.
* The network side effects are an oracle environment `ScanEnv`: the outcome of
  the `ping` subprocess per IP, the outcome of the TCP connect per (IP, port),
  the platform string, the outcome of the `arp -a` subprocess, and the
  behaviour of the platform-selected ARP line regular expression (abstracted as
  a per-line matching function, since no claim depends on the concrete regex
  text; the theorems about the neighbour table quantify over every such
  matcher).
* A `try/catch` that maps any subprocess error or timeout to a default value is
  embedded by pattern-matching on the subprocess outcome, so each embedded
  operation is a total function and the failure cases are explicit
  constructors.
* JavaScript `Array.prototype.sort` (required stable by the language
  specification) is embedded as a left-to-right stable insertion sort driven by
  the very comparator the source passes to it.
* The batch loop of `discoverDevices` (slices of 20 IPs, results of each batch
  appended in order after dropping `null`s) is embedded by chunking the IP list
  and flattening the per-chunk `filterMap`s.
-/

/-- Accumulator for `jsSplit`: walks the character list, cutting at each
separator occurrence. -/
def splitAux (sep : Char) : List Char → List Char → List String
  | [], acc => [String.mk acc.reverse]
  | c :: cs, acc =>
    if c = sep then String.mk acc.reverse :: splitAux sep cs []
    else splitAux sep cs (c :: acc)

/-- models JavaScript `String.prototype.split` with a single-character
separator (the source only splits on `"."`, `"/"` and `"\n"`). -/
def jsSplit (s : String) (sep : Char) : List String :=
  splitAux sep s.data []

/-- models a JavaScript array read `a[i]` whose value then flows into a
template literal or a `===` comparison with an address-octet literal: an
out-of-range read yields `undefined`, which stringifies to `"undefined"` and
compares unequal to every octet literal. -/
def jsIdx (l : List String) (i : Nat) : String := l.getD i "undefined"

/-- models JavaScript `String.prototype.toLowerCase` on the ASCII strings
(MAC addresses) the source applies it to. -/
def jsToLower (s : String) : String := String.mk (s.data.map Char.toLower)

/-- models JavaScript `String.prototype.substring start stop` for
`start ≤ stop` (the source only uses `substring(0, 8)`). -/
def jsSubstring (s : String) (start stop : Nat) : String :=
  String.mk ((s.data.take stop).drop start)

/-- models JavaScript `String.prototype.startsWith`. -/
def jsStartsWith (s pat : String) : Bool := pat.data.isPrefixOf s.data

/-- Decimal value of a digit list (most significant first). -/
def digitsVal (l : List Char) : Nat := l.foldl (fun a c => a * 10 + (c.toNat - 48)) 0

/-- models JavaScript `parseInt` on the inputs the source feeds it
(address octets: non-negative decimal text, possibly empty or non-numeric):
the longest leading digit run is parsed, and `none` stands for `NaN`. -/
def parseIntJs (s : String) : Option Nat :=
  let digits := s.data.takeWhile Char.isDigit
  if digits = [] then none else some (digitsVal digits)

/-- models `x >= b` where `x` is a JavaScript number that may be `NaN`
(every comparison with `NaN` is false). -/
def jsGe (x : Option Nat) (b : Nat) : Bool :=
  match x with
  | some n => decide (b ≤ n)
  | none => false

/-- models `x <= b` where `x` is a JavaScript number that may be `NaN`. -/
def jsLe (x : Option Nat) (b : Nat) : Bool :=
  match x with
  | some n => decide (n ≤ b)
  | none => false

/-- models JavaScript `Map.prototype.set` on an insertion-ordered
association list: an existing key is updated in place, a new key is appended. -/
def mapSet (m : List (String × String)) (k v : String) : List (String × String) :=
  if m.any (fun e => e.1 == k) then m.map (fun e => if e.1 == k then (k, v) else e)
  else m ++ [(k, v)]

/-- models JavaScript `Map.prototype.get` (`undefined` becomes `none`). -/
def mapGet (m : List (String × String)) (k : String) : Option String :=
  (m.find? (fun e => e.1 == k)).map (fun e => e.2)

/-- Fuel-driven chunking: `chunksAux n fuel l` cuts `l` into slices of `n`
as long as fuel remains (structural recursion on the fuel so that it reduces
in the kernel). -/
def chunksAux (n : Nat) : Nat → List α → List (List α)
  | _, [] => []
  | 0, _ :: _ => []
  | fuel + 1, x :: xs => (x :: xs).take n :: chunksAux n fuel ((x :: xs).drop n)

/-- models the batch slicing loop `for (i = 0; i < ips.length; i += batchSize)`
with `batch = ips.slice(i, i + batchSize)`. -/
def chunks (n : Nat) (l : List α) : List (List α) := chunksAux n l.length l

/-- Insertion step of the stable sort: `x` is placed before the first element
it strictly precedes under the comparator, hence after every element that
compares equal to it — exactly the stability JavaScript guarantees. -/
def insertJs (cmp : α → α → Int) (x : α) : List α → List α
  | [] => [x]
  | y :: ys => if cmp x y < 0 then x :: y :: ys else y :: insertJs cmp x ys

/-- models JavaScript `Array.prototype.sort` with a comparator: a stable sort
realised as left-to-right insertion. -/
def sortJs (cmp : α → α → Int) (l : List α) : List α :=
  l.foldl (fun acc x => insertJs cmp x acc) []

/-- Outcome of a subprocess invocation (`execSync`): normal termination with
its captured output, a thrown error, or a timeout — the latter two are the
conditions a surrounding `try/catch` turns into the default value. -/
inductive ProcResult where
  | ok (output : String)
  | err
  | timedOut
deriving DecidableEq

/-- Outcome of one TCP connection attempt (`net.Socket`): the `connect`
event, the `error` event, or expiry of the watchdog timer. -/
inductive ConnectResult where
  | connected
  | connError
  | connTimeout
deriving DecidableEq

/-- One entry of `os.networkInterfaces()`: address family tag, loopback flag
and the textual address. -/
structure InterfaceAddr where
  family : String
  internal : Bool
  address : String
deriving DecidableEq

/-- the `NetworkDevice` record assembled by `discoverDevices` (optional fields
of the TypeScript interface become `Option`). -/
structure NetworkDevice where
  ip : String
  mac : Option String
  vendor : Option String
  ports : List Nat
  isLikelyRoboVac : Bool
deriving DecidableEq

/-- Oracle for every effect `NetworkDiscovery` performs: the interface table,
the platform string, the outcome of the `arp -a` subprocess, the behaviour of
the platform-selected ARP line regular expression, the per-IP `ping` outcome
and the per-(IP, port) TCP connect outcome. -/
structure ScanEnv where
  interfaces : List (List InterfaceAddr)
  platform : String
  arpCmd : ProcResult
  arpLineMatch : String → Option (String × String)
  ping : String → ProcResult
  connect : String → Nat → ConnectResult

/-- the field `TUYA_PORTS = [6668, 6667, 443]`. -/
def TUYA_PORTS : List Nat := [6668, 6667, 443]

/-- the field `ANKER_EUFY_OUIS` (five known vendor OUIs, lower case). -/
def ANKER_EUFY_OUIS : List String :=
  ["34:ea:34", "70:55:82", "90:9a:4a", "a4:c1:38", "2c:aa:8e"]

/-- Body of the inner loop of `getLocalNetworkRange`: an IPv4, non-internal
address is classified by its leading octets (`192.168.*` → its /24, `10.*` →
the fixed `10.0.0.0/24`, `172.16-31.*` → its /16); any other address makes the
loop continue, i.e. yields `none`. -/
def rangeOfAddr (addr : InterfaceAddr) : Option String :=
  if addr.family == "IPv4" && !addr.internal then
    let parts := jsSplit addr.address '.'
    if jsIdx parts 0 == "192" && jsIdx parts 1 == "168" then
      some (jsIdx parts 0 ++ "." ++ jsIdx parts 1 ++ "." ++ jsIdx parts 2 ++ ".0/24")
    else if jsIdx parts 0 == "10" then
      some "10.0.0.0/24"
    else if jsIdx parts 0 == "172" && jsGe (parseIntJs (jsIdx parts 1)) 16
        && jsLe (parseIntJs (jsIdx parts 1)) 31 then
      some ("172." ++ jsIdx parts 1 ++ ".0.0/16")
    else none
  else none

/-- the method `getLocalNetworkRange`: first classified address wins, with the
documented fallback `"192.168.1.0/24"`. -/
def getLocalNetworkRange (interfaces : List (List InterfaceAddr)) : String :=
  (interfaces.flatten.findSome? rangeOfAddr).getD "192.168.1.0/24"

/-- the method `scanPort` as a function of the connection outcome: only the
`connect` event resolves the promise with `true`; the `error` event and the
timeout both resolve it with `false`. -/
def scanPort (outcome : ConnectResult) : Bool :=
  match outcome with
  | .connected => true
  | .connError => false
  | .connTimeout => false

/-- the method `pingHost` as a function of the subprocess outcome: a normal
exit returns `true`; the `catch` turns a thrown error or timeout into
`false`. -/
def pingHost (outcome : ProcResult) : Bool :=
  match outcome with
  | .ok _ => true
  | .err => false
  | .timedOut => false

/-- the method `getArpTable`: unsupported platforms yield the empty map; a
failed or timed-out `arp -a` is caught, leaving the map empty; otherwise each
output line is run through the platform's line matcher and every match is
inserted with the MAC lower-cased. -/
def getArpTable (platform : String) (cmd : ProcResult)
    (lineMatch : String → Option (String × String)) : List (String × String) :=
  if platform == "darwin" || platform == "linux" || platform == "win32" then
    match cmd with
    | .ok output =>
      (jsSplit output '\n').foldl
        (fun arpMap line =>
          match lineMatch line with
          | some (ipStr, macStr) => mapSet arpMap ipStr (jsToLower macStr)
          | none => arpMap) []
    | .err => []
    | .timedOut => []
  else []

/-- the method `isAnkerEufyDevice`: lower-case the MAC, keep its first eight
characters, and test them against each known OUI with `startsWith`. -/
def isAnkerEufyDevice (mac : String) : Bool :=
  let macHead := jsSubstring (jsToLower mac) 0 8
  ANKER_EUFY_OUIS.any (fun oui => jsStartsWith macHead oui)

/-- the IP enumeration of `discoverDevices`: `baseIp` is the text before the
`"/"` of the range, its first three dot-separated parts are kept, and the loop
`for (let i = 1; i < 255; i++)` appends host octets 1..254. -/
def ipsToScan (networkRange : String) : List String :=
  let baseIp := jsIdx (jsSplit networkRange '/') 0
  let ipParts := jsSplit baseIp '.'
  (List.range' 1 254).map (fun i =>
    jsIdx ipParts 0 ++ "." ++ jsIdx ipParts 1 ++ "." ++ jsIdx ipParts 2 ++ "." ++ Nat.repr i)

/-- the port-scanning step of the per-host pipeline: probe every entry of
`TUYA_PORTS` and keep, via the indexed `filter` over the result array, the
ports whose probe succeeded. -/
def openPortsOf (env : ScanEnv) (ip : String) : List Nat :=
  let portResults := TUYA_PORTS.map (fun port => scanPort (env.connect ip port))
  ((TUYA_PORTS.zip portResults).filter (fun pr => pr.2)).map Prod.fst

/-- the per-host pipeline (the async lambda inside the batch loop of
`discoverDevices`): unreachable host → `null`; no open port → `null`;
otherwise assemble the `NetworkDevice` record from the ARP lookup. -/
def probeHost (env : ScanEnv) (arpTable : List (String × String)) (ip : String) :
    Option NetworkDevice :=
  let isAlive := pingHost (env.ping ip)
  if !isAlive then none
  else
    let openPorts := openPortsOf env ip
    if openPorts.length = 0 then none
    else
      let mac := mapGet arpTable ip
      let isAnkerDevice := match mac with | some m => isAnkerEufyDevice m | none => false
      some { ip := ip
             mac := mac
             vendor := if isAnkerDevice then some "Anker/Eufy" else none
             ports := openPorts
             isLikelyRoboVac := isAnkerDevice && openPorts.contains 6668 }

/-- the comparator passed to `devices.sort`: likely RoboVacs first, ties keep
rank 0. -/
def roboVacCompare (a b : NetworkDevice) : Int :=
  if a.isLikelyRoboVac && !b.isLikelyRoboVac then -1
  else if !a.isLikelyRoboVac && b.isLikelyRoboVac then 1
  else 0

/-- the accumulation phase of `discoverDevices`: resolve the range, read the
ARP table once, enumerate the 254 addresses, process them in batches of 20 and
concatenate each batch's non-null results in order. -/
def discoverRaw (env : ScanEnv) : List NetworkDevice :=
  let networkRange := getLocalNetworkRange env.interfaces
  let arpTable := getArpTable env.platform env.arpCmd env.arpLineMatch
  let ips := ipsToScan networkRange
  ((chunks 20 ips).map (fun batch => batch.filterMap (probeHost env arpTable))).flatten

/-- the method `discoverDevices`: the accumulated list, stably sorted by
`roboVacCompare`. -/
def discoverDevices (env : ScanEnv) : List NetworkDevice :=
  sortJs roboVacCompare (discoverRaw env)

/-- the method `findRoboVacs`: keep devices that are likely RoboVacs or have
the control port open with a known vendor. -/
def findRoboVacs (env : ScanEnv) : List NetworkDevice :=
  (discoverDevices env).filter (fun device =>
    device.isLikelyRoboVac ||
      (device.ports.contains 6668 && device.vendor == some "Anker/Eufy"))

/-- Interface entry used by the concrete witness environments. -/
def addrW : InterfaceAddr := { family := "IPv4", internal := false, address := "192.168.1.4" }

/-- Concrete environment with one reachable host at `192.168.1.50` whose MAC
(reported upper case by the ARP matcher) carries a known OUI, and whose only
open port is 6668. -/
def envW : ScanEnv :=
  { interfaces := [[addrW]]
    platform := "linux"
    arpCmd := .ok "entry"
    arpLineMatch := fun line =>
      if line == "entry" then some ("192.168.1.50", "34:EA:34:AA:BB:CC") else none
    ping := fun ip => if ip == "192.168.1.50" then .ok "" else .err
    connect := fun _ port => if port == 6668 then .connected else .connTimeout }

/-- the single device `envW` discovers. -/
def deviceW : NetworkDevice :=
  { ip := "192.168.1.50", mac := some "34:ea:34:aa:bb:cc", vendor := some "Anker/Eufy",
    ports := [6668], isLikelyRoboVac := true }

/-- Concrete environment on an unsupported platform (empty neighbour table):
every host answers ping and only port 6668 is open anywhere. -/
def envW9 : ScanEnv :=
  { interfaces := []
    platform := "sunos"
    arpCmd := .ok ""
    arpLineMatch := fun _ => none
    ping := fun _ => .ok ""
    connect := fun _ port => if port == 6668 then .connected else .connError }

theorem zip_map_filter_eq_filter (l : List Nat) (f : Nat → Bool) :
    ((l.zip (l.map f)).filter (fun pr => pr.2)).map Prod.fst = l.filter f := by
  induction l with
  | nil => rfl
  | cons a t ih =>
    cases h : f a <;>
      simp [List.map_cons, List.zip_cons_cons, List.filter_cons, h, ih]

theorem openPortsOf_eq (env : ScanEnv) (ip : String) :
    openPortsOf env ip = TUYA_PORTS.filter (fun port => scanPort (env.connect ip port)) :=
  zip_map_filter_eq_filter TUYA_PORTS _

theorem chunksAux_map_filterMap_flatten (f : α → Option β) (n : Nat) (hn : 0 < n) :
    ∀ (fuel : Nat) (l : List α), l.length ≤ fuel →
      ((chunksAux n fuel l).map (List.filterMap f)).flatten = l.filterMap f := by
  intro fuel
  induction fuel with
  | zero =>
    intro l hl
    cases l with
    | nil => rfl
    | cons x xs => simp at hl
  | succ fuel ih =>
    intro l hl
    cases l with
    | nil => rfl
    | cons x xs =>
      have hdrop : ((x :: xs).drop n).length ≤ fuel := by
        simp only [List.length_drop, List.length_cons]
        simp only [List.length_cons] at hl
        omega
      simp only [chunksAux, List.map_cons, List.flatten_cons, ih _ hdrop]
      rw [← List.filterMap_append, List.take_append_drop]

theorem chunksAux_flatten (n : Nat) (hn : 0 < n) :
    ∀ (fuel : Nat) (l : List α), l.length ≤ fuel → (chunksAux n fuel l).flatten = l := by
  intro fuel
  induction fuel with
  | zero =>
    intro l hl
    cases l with
    | nil => rfl
    | cons x xs => simp at hl
  | succ fuel ih =>
    intro l hl
    cases l with
    | nil => rfl
    | cons x xs =>
      have hdrop : ((x :: xs).drop n).length ≤ fuel := by
        simp only [List.length_drop, List.length_cons]
        simp only [List.length_cons] at hl
        omega
      simp only [chunksAux, List.flatten_cons, ih _ hdrop]
      exact List.take_append_drop n (x :: xs)

theorem chunks_flatten (n : Nat) (hn : 0 < n) (l : List α) : (chunks n l).flatten = l :=
  chunksAux_flatten n hn l.length l le_rfl

theorem discoverRaw_eq (env : ScanEnv) :
    discoverRaw env =
      (ipsToScan (getLocalNetworkRange env.interfaces)).filterMap
        (probeHost env (getArpTable env.platform env.arpCmd env.arpLineMatch)) := by
  unfold discoverRaw chunks
  exact chunksAux_map_filterMap_flatten _ 20 (by omega) _ _ le_rfl

theorem insertJs_roboVac_pos (x : NetworkDevice) (hx : x.isLikelyRoboVac = true)
    (A B : List NetworkDevice) (hA : ∀ a ∈ A, a.isLikelyRoboVac = true)
    (hB : ∀ b ∈ B, b.isLikelyRoboVac = false) :
    insertJs roboVacCompare x (A ++ B) = A ++ x :: B := by
  induction A with
  | nil =>
    cases B with
    | nil => rfl
    | cons b bs =>
      have hb : b.isLikelyRoboVac = false := hB b (by simp)
      simp [insertJs, roboVacCompare, hx, hb]
  | cons a as ih =>
    have ha : a.isLikelyRoboVac = true := hA a (by simp)
    have step : insertJs roboVacCompare x ((a :: as) ++ B) =
        a :: insertJs roboVacCompare x (as ++ B) := by
      simp [insertJs, roboVacCompare, hx, ha]
    rw [step, ih (fun a' h' => hA a' (List.mem_cons_of_mem a h'))]
    rfl

theorem insertJs_roboVac_neg (x : NetworkDevice) (hx : x.isLikelyRoboVac = false)
    (l : List NetworkDevice) :
    insertJs roboVacCompare x l = l ++ [x] := by
  induction l with
  | nil => rfl
  | cons y ys ih =>
    have step : insertJs roboVacCompare x (y :: ys) =
        y :: insertJs roboVacCompare x ys := by
      cases hy : y.isLikelyRoboVac <;> simp [insertJs, roboVacCompare, hx, hy]
    rw [step, ih]
    rfl

theorem sortJs_roboVac_aux :
    ∀ (l A B : List NetworkDevice), (∀ a ∈ A, a.isLikelyRoboVac = true) →
      (∀ b ∈ B, b.isLikelyRoboVac = false) →
      l.foldl (fun acc x => insertJs roboVacCompare x acc) (A ++ B) =
        (A ++ l.filter (fun d => d.isLikelyRoboVac)) ++
          (B ++ l.filter (fun d => !d.isLikelyRoboVac)) := by
  intro l
  induction l with
  | nil => intro A B hA hB; simp
  | cons x t ih =>
    intro A B hA hB
    cases hx : x.isLikelyRoboVac with
    | true =>
      have h1 : insertJs roboVacCompare x (A ++ B) = (A ++ [x]) ++ B := by
        rw [insertJs_roboVac_pos x hx A B hA hB]
        simp
      have hA' : ∀ a ∈ A ++ [x], a.isLikelyRoboVac = true := by
        intro a ha
        rcases List.mem_append.1 ha with h | h
        · exact hA a h
        · simp at h
          rw [h]
          exact hx
      simp only [List.foldl_cons, h1, ih (A ++ [x]) B hA' hB,
        List.filter_cons, hx]
      simp
    | false =>
      have h1 : insertJs roboVacCompare x (A ++ B) = A ++ (B ++ [x]) := by
        rw [insertJs_roboVac_neg x hx (A ++ B)]
        simp
      have hB' : ∀ b ∈ B ++ [x], b.isLikelyRoboVac = false := by
        intro b hb
        rcases List.mem_append.1 hb with h | h
        · exact hB b h
        · simp at h
          rw [h]
          exact hx
      simp only [List.foldl_cons, h1, ih A (B ++ [x]) hA hB',
        List.filter_cons, hx]
      simp

theorem sortJs_roboVac (l : List NetworkDevice) :
    sortJs roboVacCompare l =
      l.filter (fun d => d.isLikelyRoboVac) ++ l.filter (fun d => !d.isLikelyRoboVac) := by
  have h := sortJs_roboVac_aux l [] [] (by simp) (by simp)
  simpa [sortJs] using h

theorem probeHost_some_of (env : ScanEnv) (arpTable : List (String × String)) (ip : String)
    (h1 : pingHost (env.ping ip) = true) (h2 : openPortsOf env ip ≠ []) :
    probeHost env arpTable ip =
      some { ip := ip
             mac := mapGet arpTable ip
             vendor := if (match mapGet arpTable ip with
               | some m => isAnkerEufyDevice m
               | none => false) then some "Anker/Eufy" else none
             ports := openPortsOf env ip
             isLikelyRoboVac := (match mapGet arpTable ip with
               | some m => isAnkerEufyDevice m
               | none => false) && (openPortsOf env ip).contains 6668 } := by
  have hlen : (openPortsOf env ip).length ≠ 0 := by
    intro h
    exact h2 (List.length_eq_zero.1 h)
  simp [probeHost, h1, hlen]

theorem probeHost_some_elim {env : ScanEnv} {arpTable : List (String × String)}
    {ip : String} {d : NetworkDevice} (h : probeHost env arpTable ip = some d) :
    pingHost (env.ping ip) = true ∧ openPortsOf env ip ≠ [] ∧
      d = { ip := ip
            mac := mapGet arpTable ip
            vendor := if (match mapGet arpTable ip with
              | some m => isAnkerEufyDevice m
              | none => false) then some "Anker/Eufy" else none
            ports := openPortsOf env ip
            isLikelyRoboVac := (match mapGet arpTable ip with
              | some m => isAnkerEufyDevice m
              | none => false) && (openPortsOf env ip).contains 6668 } := by
  by_cases h1 : pingHost (env.ping ip) = true
  · by_cases h2 : (openPortsOf env ip).length = 0
    · rw [probeHost] at h
      simp [h1, h2] at h
    · have h2' : openPortsOf env ip ≠ [] := by
        intro hnil
        exact h2 (by rw [hnil]; rfl)
      rw [probeHost_some_of env arpTable ip h1 h2'] at h
      exact ⟨h1, h2', (Option.some_inj.1 h).symm⟩
  · rw [probeHost] at h
    have h1' : pingHost (env.ping ip) = false := by
      cases hp : pingHost (env.ping ip)
      · rfl
      · exact absurd hp h1
    simp [h1'] at h

theorem mem_discoverDevices {env : ScanEnv} {d : NetworkDevice} :
    d ∈ discoverDevices env ↔ d ∈ discoverRaw env := by
  unfold discoverDevices
  rw [sortJs_roboVac]
  simp only [List.mem_append, List.mem_filter]
  cases hd : d.isLikelyRoboVac <;> simp [hd]

theorem mem_discoverRaw {env : ScanEnv} {d : NetworkDevice} :
    d ∈ discoverRaw env ↔
      ∃ ip ∈ ipsToScan (getLocalNetworkRange env.interfaces),
        probeHost env (getArpTable env.platform env.arpCmd env.arpLineMatch) ip = some d := by
  rw [discoverRaw_eq]
  exact List.mem_filterMap

theorem parseIntJs_repr : ∀ n ∈ List.range' 1 254, parseIntJs (Nat.repr n) = some n := by
  decide

theorem repr_injOn_range :
    ∀ i ∈ List.range' 1 254, ∀ j ∈ List.range' 1 254, Nat.repr i = Nat.repr j → i = j := by
  intro i hi j hj h
  have h1 := parseIntJs_repr i hi
  have h2 := parseIntJs_repr j hj
  rw [h, h2] at h1
  exact (Option.some_inj.1 h1).symm

theorem string_append_cancel {a b c : String} (h : a ++ b = a ++ c) : b = c := by
  apply String.ext
  have hd := congrArg String.data h
  rw [String.data_append, String.data_append] at hd
  exact List.append_cancel_left hd

theorem ipsToScan_spec (networkRange : String) :
    (ipsToScan networkRange).length = 254 ∧
    (ipsToScan networkRange).Nodup ∧
    (chunks 20 (ipsToScan networkRange)).flatten = ipsToScan networkRange ∧
    ∀ s : String, s ∈ ipsToScan networkRange ↔
      ∃ i : Nat, 1 ≤ i ∧ i ≤ 254 ∧
        s = jsIdx (jsSplit (jsIdx (jsSplit networkRange '/') 0) '.') 0 ++ "." ++
            jsIdx (jsSplit (jsIdx (jsSplit networkRange '/') 0) '.') 1 ++ "." ++
            jsIdx (jsSplit (jsIdx (jsSplit networkRange '/') 0) '.') 2 ++ "." ++ Nat.repr i := by
  refine ⟨?_, ?_, chunks_flatten 20 (by omega) _, ?_⟩
  · simp [ipsToScan, List.length_range']
  · simp only [ipsToScan]
    apply List.Nodup.map_on _ (List.nodup_range' 1 254)
    intro i hi j hj hEq
    exact repr_injOn_range i hi j hj (string_append_cancel hEq)
  · intro s
    simp only [ipsToScan, List.mem_map]
    constructor
    · rintro ⟨i, hi, rfl⟩
      have hr := List.mem_range'_1.1 hi
      exact ⟨i, hr.1, by omega, rfl⟩
    · rintro ⟨i, h1, h2, rfl⟩
      exact ⟨i, List.mem_range'_1.2 ⟨h1, by omega⟩, rfl⟩

theorem rangeOfAddr_of_skip {b : InterfaceAddr}
    (h : ¬(b.family = "IPv4" ∧ b.internal = false)) : rangeOfAddr b = none := by
  unfold rangeOfAddr
  have hg : (b.family == "IPv4" && !b.internal) = false := by
    by_cases hf : b.family = "IPv4"
    · cases hi : b.internal
      · exact absurd ⟨hf, hi⟩ h
      · simp [hi]
    · simp [beq_iff_eq, hf]
  simp [hg]

theorem getLocalNetworkRange_first {interfaces : List (List InterfaceAddr)}
    {pre post : List InterfaceAddr} {a : InterfaceAddr} {r : String}
    (hjoin : interfaces.flatten = pre ++ a :: post)
    (hpre : ∀ b ∈ pre, rangeOfAddr b = none)
    (ha : rangeOfAddr a = some r) :
    getLocalNetworkRange interfaces = r := by
  unfold getLocalNetworkRange
  rw [hjoin, List.findSome?_append]
  have hnone : List.findSome? rangeOfAddr pre = none := by
    rw [List.findSome?_eq_none_iff]
    exact hpre
  rw [hnone, Option.none_or, List.findSome?_cons]
  simp [ha]

theorem string_octets_192 (c : String) :
    "192" ++ "." ++ "168" ++ "." ++ c ++ ".0/24" = "192.168." ++ c ++ ".0/24" := by
  apply String.ext
  simp [String.data_append]

theorem discoverDevices_shape {env : ScanEnv} {d : NetworkDevice}
    (hd : d ∈ discoverDevices env) :
    ∃ ip ∈ ipsToScan (getLocalNetworkRange env.interfaces),
      pingHost (env.ping ip) = true ∧ openPortsOf env ip ≠ [] ∧
      d = { ip := ip
            mac := mapGet (getArpTable env.platform env.arpCmd env.arpLineMatch) ip
            vendor := if (match mapGet (getArpTable env.platform env.arpCmd env.arpLineMatch) ip with
              | some m => isAnkerEufyDevice m
              | none => false) then some "Anker/Eufy" else none
            ports := openPortsOf env ip
            isLikelyRoboVac := (match mapGet (getArpTable env.platform env.arpCmd env.arpLineMatch) ip with
              | some m => isAnkerEufyDevice m
              | none => false) && (openPortsOf env ip).contains 6668 } := by
  obtain ⟨ip, hip, hp⟩ := mem_discoverRaw.1 (mem_discoverDevices.1 hd)
  obtain ⟨h1, h2, h3⟩ := probeHost_some_elim hp
  exact ⟨ip, hip, h1, h2, h3⟩

theorem rangeOfAddr_192 {a : InterfaceAddr} (hfam : a.family = "IPv4")
    (hint : a.internal = false)
    (h0 : jsIdx (jsSplit a.address '.') 0 = "192")
    (h1 : jsIdx (jsSplit a.address '.') 1 = "168") :
    rangeOfAddr a = some ("192.168." ++ jsIdx (jsSplit a.address '.') 2 ++ ".0/24") := by
  simp [rangeOfAddr, hfam, hint, h0, h1, string_octets_192]

theorem rangeOfAddr_10 {a : InterfaceAddr} (hfam : a.family = "IPv4")
    (hint : a.internal = false)
    (h0 : jsIdx (jsSplit a.address '.') 0 = "10") :
    rangeOfAddr a = some "10.0.0.0/24" := by
  simp [rangeOfAddr, hfam, hint, h0]

theorem rangeOfAddr_172 {a : InterfaceAddr} (hfam : a.family = "IPv4")
    (hint : a.internal = false)
    (h0 : jsIdx (jsSplit a.address '.') 0 = "172") {n : Nat}
    (hp : parseIntJs (jsIdx (jsSplit a.address '.') 1) = some n)
    (h16 : 16 ≤ n) (h31 : n ≤ 31) :
    rangeOfAddr a = some ("172." ++ jsIdx (jsSplit a.address '.') 1 ++ ".0.0/16") := by
  simp [rangeOfAddr, hfam, hint, h0, hp, jsGe, jsLe, h16, h31]

theorem arp_foldl_none (lineMatch : String → Option (String × String))
    (lines : List String) (h : ∀ line ∈ lines, lineMatch line = none)
    (m : List (String × String)) :
    lines.foldl
      (fun arpMap line =>
        match lineMatch line with
        | some (ipStr, macStr) => mapSet arpMap ipStr (jsToLower macStr)
        | none => arpMap) m = m := by
  induction lines generalizing m with
  | nil => rfl
  | cons l ls ih =>
    rw [List.foldl_cons]
    have hl := h l (by simp)
    simp only [hl]
    exact ih (fun x hx => h x (by simp [hx])) m

theorem oui_data_length : ∀ oui ∈ ANKER_EUFY_OUIS, oui.data.length ≤ 8 := by decide

/-- C1: for every resolved base network, the discovery scan enumerates exactly the
254 host addresses built from the first three dot-separated parts of the base
(the text before the `/`), with the last octet ranging over 1..254, each visited
exactly once — no duplicates, no gaps — across all batches of 20; the per-host
probing of `discoverDevices` is exactly a traversal of that list, so even when
the resolver declares a /16 for a 172.16-31.x.x interface only that 254-address
slice is examined. -/
theorem c1_scanned_address_space (env : ScanEnv) :
    discoverRaw env =
      (ipsToScan (getLocalNetworkRange env.interfaces)).filterMap
        (probeHost env (getArpTable env.platform env.arpCmd env.arpLineMatch)) ∧
    (ipsToScan (getLocalNetworkRange env.interfaces)).length = 254 ∧
    (ipsToScan (getLocalNetworkRange env.interfaces)).Nodup ∧
    (chunks 20 (ipsToScan (getLocalNetworkRange env.interfaces))).flatten =
      ipsToScan (getLocalNetworkRange env.interfaces) ∧
    ∀ s : String, s ∈ ipsToScan (getLocalNetworkRange env.interfaces) ↔
      ∃ i : Nat, 1 ≤ i ∧ i ≤ 254 ∧
        s = jsIdx (jsSplit (jsIdx (jsSplit (getLocalNetworkRange env.interfaces) '/') 0) '.') 0
            ++ "." ++
            jsIdx (jsSplit (jsIdx (jsSplit (getLocalNetworkRange env.interfaces) '/') 0) '.') 1
            ++ "." ++
            jsIdx (jsSplit (jsIdx (jsSplit (getLocalNetworkRange env.interfaces) '/') 0) '.') 2
            ++ "." ++ Nat.repr i :=
  ⟨discoverRaw_eq env, ipsToScan_spec (getLocalNetworkRange env.interfaces)⟩

/-- C2 counterexample: the claim maps a `10.x.y.z` interface address to the /24
sharing its first three octets, but the code returns the fixed `10.0.0.0/24`:
at address `10.20.30.40` the resolved range is `10.0.0.0/24`, not
`10.20.30.0/24`. -/
theorem c2_counterexample :
    getLocalNetworkRange
        [[{ family := "IPv4", internal := false, address := "10.20.30.40" }]]
      = "10.0.0.0/24" ∧
    getLocalNetworkRange
        [[{ family := "IPv4", internal := false, address := "10.20.30.40" }]]
      ≠ "10.20.30.0/24" := by
  decide

/-- C2 (amended): for a host whose first non-internal IPv4 interface address is
private, `getLocalNetworkRange` maps a `192.168.x.y` address to the /24
containing it, maps any `10.x.y.z` address to the fixed `10.0.0.0/24`
(regardless of its middle octets), and maps a `172.16.0.0`-`172.31.255.255`
address to its /16. -/
theorem c2_private_range_mapping (interfaces : List (List InterfaceAddr))
    (pre post : List InterfaceAddr) (a : InterfaceAddr)
    (hjoin : interfaces.flatten = pre ++ a :: post)
    (hpre : ∀ b ∈ pre, ¬(b.family = "IPv4" ∧ b.internal = false))
    (hfam : a.family = "IPv4") (hint : a.internal = false) :
    (jsIdx (jsSplit a.address '.') 0 = "192" → jsIdx (jsSplit a.address '.') 1 = "168" →
      getLocalNetworkRange interfaces = "192.168." ++ jsIdx (jsSplit a.address '.') 2 ++ ".0/24") ∧
    (jsIdx (jsSplit a.address '.') 0 = "10" →
      getLocalNetworkRange interfaces = "10.0.0.0/24") ∧
    (∀ n : Nat, jsIdx (jsSplit a.address '.') 0 = "172" →
      parseIntJs (jsIdx (jsSplit a.address '.') 1) = some n → 16 ≤ n → n ≤ 31 →
      getLocalNetworkRange interfaces = "172." ++ jsIdx (jsSplit a.address '.') 1 ++ ".0.0/16") := by
  have hskip : ∀ b ∈ pre, rangeOfAddr b = none :=
    fun b hb => rangeOfAddr_of_skip (hpre b hb)
  refine ⟨?_, ?_, ?_⟩
  · intro h0 h1
    exact getLocalNetworkRange_first hjoin hskip (rangeOfAddr_192 hfam hint h0 h1)
  · intro h0
    exact getLocalNetworkRange_first hjoin hskip (rangeOfAddr_10 hfam hint h0)
  · intro n h0 hp h16 h31
    exact getLocalNetworkRange_first hjoin hskip (rangeOfAddr_172 hfam hint h0 hp h16 h31)

/-- Witness for C2 (amended): a host whose only interface address is
`172.20.1.2` resolves to `172.20.0.0/16`. -/
theorem c2_witness :
    getLocalNetworkRange
        [[{ family := "IPv4", internal := false, address := "172.20.1.2" }]]
      = "172.20.0.0/16" := by
  have h := (c2_private_range_mapping
      [[{ family := "IPv4", internal := false, address := "172.20.1.2" }]] [] []
      { family := "IPv4", internal := false, address := "172.20.1.2" }
      (by rfl) (by intro b hb; cases hb) rfl rfl).2.2
      20 (by decide) (by decide) (by decide) (by decide)
  exact h.trans (by decide)

/-- C5: the final ordering of `discoverDevices` is a stable partition of the
discovery-ordered list: every entry with `isLikelyRoboVac = true` precedes every
entry with `isLikelyRoboVac = false`, and within each part the relative order is
exactly the order of discovery (ascending batch/address order). -/
theorem c5_stable_partition (env : ScanEnv) :
    discoverDevices env =
      (discoverRaw env).filter (fun d => d.isLikelyRoboVac) ++
        (discoverRaw env).filter (fun d => !d.isLikelyRoboVac) :=
  sortJs_roboVac (discoverRaw env)

/-- C7: ordinary network failures never escape: a ping subprocess error or
timeout makes `pingHost` answer `false` (unreachable), a TCP connect error or
timeout makes `scanPort` answer `false` (closed), a failed or timed-out
neighbour-table command yields the empty map from `getArpTable` (for every
platform and every line matcher), and an output none of whose lines matches
also yields the empty map; each embedded operation is a total function, so no
exception propagates to the caller. -/
theorem c7_failure_semantics :
    pingHost ProcResult.err = false ∧ pingHost ProcResult.timedOut = false ∧
    scanPort ConnectResult.connError = false ∧
    scanPort ConnectResult.connTimeout = false ∧
    (∀ (platform : String) (lineMatch : String → Option (String × String)),
      getArpTable platform ProcResult.err lineMatch = [] ∧
      getArpTable platform ProcResult.timedOut lineMatch = []) ∧
    (∀ (platform output : String) (lineMatch : String → Option (String × String)),
      (∀ line ∈ jsSplit output '\n', lineMatch line = none) →
      getArpTable platform (ProcResult.ok output) lineMatch = []) := by
  refine ⟨rfl, rfl, rfl, rfl, ?_, ?_⟩
  · intro platform lineMatch
    constructor <;>
      · unfold getArpTable
        split <;> rfl
  · intro platform output lineMatch h
    unfold getArpTable
    split
    · exact arp_foldl_none lineMatch (jsSplit output '\n') h []
    · rfl

/-- Witness for C7: a supported platform whose neighbour-table output parses to
nothing yields the empty map. -/
theorem c7_witness :
    getArpTable "linux" (ProcResult.ok "junk") (fun _ => none) = [] :=
  c7_failure_semantics.2.2.2.2.2 "linux" "junk" (fun _ => none) (fun _ _ => rfl)

/-- C3: for every device returned by `discoverDevices`, `isLikelyRoboVac` equals
exactly (vendor is known AND control port 6668 is among the open ports); in
particular `isLikelyRoboVac = true` implies the vendor is defined and 6668 is
open. -/
theorem c3_isLikely_definition (env : ScanEnv) (d : NetworkDevice)
    (hd : d ∈ discoverDevices env) :
    d.isLikelyRoboVac = (d.vendor.isSome && d.ports.contains 6668) ∧
    (d.isLikelyRoboVac = true → d.vendor.isSome = true ∧ 6668 ∈ d.ports) := by
  obtain ⟨ip, hip, hping, hne, hdEq⟩ := discoverDevices_shape hd
  subst hdEq
  cases hA : (match mapGet (getArpTable env.platform env.arpCmd env.arpLineMatch) ip with
      | some m => isAnkerEufyDevice m
      | none => false) with
  | false =>
    constructor
    · simp [hA]
    · intro h
      simp [hA] at h
  | true =>
    constructor
    · simp [hA]
    · intro h
      simp [hA] at h ⊢
      exact h

/-- C4: every device returned by `discoverDevices` answered the ping probe and
carries a non-empty list of open ports drawn from the fixed candidate set
`TUYA_PORTS = [6668, 6667, 443]`; a host that is unreachable or has no open
candidate port can supply no entry of the output. -/
theorem c4_output_invariants (env : ScanEnv) (d : NetworkDevice)
    (hd : d ∈ discoverDevices env) :
    pingHost (env.ping d.ip) = true ∧ d.ports ≠ [] ∧ d.ports = openPortsOf env d.ip ∧
    (∀ p ∈ d.ports, p ∈ TUYA_PORTS) ∧
    (∀ ip : String, pingHost (env.ping ip) = false ∨ openPortsOf env ip = [] →
      d.ip ≠ ip) := by
  obtain ⟨ip, hip, hping, hne, hdEq⟩ := discoverDevices_shape hd
  subst hdEq
  refine ⟨hping, hne, rfl, ?_, ?_⟩
  · intro p hp
    have hp' : p ∈ openPortsOf env ip := hp
    rw [openPortsOf_eq] at hp'
    exact (List.mem_filter.1 hp').1
  · intro ip' hbad heq
    have heq' : ip = ip' := heq
    subst heq'
    rcases hbad with hb | hb
    · rw [hping] at hb
      cases hb
    · exact hne hb

/-- C6: `findRoboVacs` returns exactly the devices of `discoverDevices` whose
`isLikelyRoboVac` flag is true, in the same relative order: on discovery output
the secondary disjunct (control port open AND vendor known) coincides with
`isLikelyRoboVac`, so it admits no additional devices. -/
theorem c6_findRoboVacs_eq_filter (env : ScanEnv) :
    findRoboVacs env = (discoverDevices env).filter (fun d => d.isLikelyRoboVac) := by
  unfold findRoboVacs
  apply List.filter_congr
  intro d hd
  obtain ⟨ip, hip, hping, hne, hdEq⟩ := discoverDevices_shape hd
  subst hdEq
  cases hA : (match mapGet (getArpTable env.platform env.arpCmd env.arpLineMatch) ip with
      | some m => isAnkerEufyDevice m
      | none => false) with
  | false => simp [hA]
  | true => simp [hA]

/-- C8: vendor matching lower-cases the MAC, keeps its first 8 characters (the
colon-separated three-octet OUI) and compares them against the fixed OUI list,
so a MAC matches exactly when its lower-casing starts with a listed OUI;
matching is insensitive to letter case (it depends only on the lower-cased
text), and `34:EA:34:11:22:33` matches the OUI `34:ea:34`. -/
theorem c8_vendor_matching :
    (∀ mac : String, isAnkerEufyDevice mac = true ↔
      ∃ oui ∈ ANKER_EUFY_OUIS, oui.data <+: (jsToLower mac).data) ∧
    (∀ mac1 mac2 : String, jsToLower mac1 = jsToLower mac2 →
      isAnkerEufyDevice mac1 = isAnkerEufyDevice mac2) ∧
    isAnkerEufyDevice "34:EA:34:11:22:33" = true := by
  have hsub : ∀ s : String, (jsSubstring s 0 8).data = s.data.take 8 := by
    intro s
    simp [jsSubstring]
  refine ⟨?_, ?_, by decide⟩
  · intro mac
    simp only [isAnkerEufyDevice, jsStartsWith, List.any_eq_true]
    constructor
    · rintro ⟨oui, ho, hpre⟩
      refine ⟨oui, ho, ?_⟩
      have h1 : oui.data <+: (jsSubstring (jsToLower mac) 0 8).data :=
        List.isPrefixOf_iff_prefix.1 hpre
      rw [hsub] at h1
      have h2 := List.take_prefix 8 (jsToLower mac).data
      exact h1.trans h2
    · rintro ⟨oui, ho, hpre⟩
      refine ⟨oui, ho, List.isPrefixOf_iff_prefix.2 ?_⟩
      rw [hsub]
      exact List.prefix_take_iff.2 ⟨hpre, oui_data_length oui ho⟩
  · intro mac1 mac2 h
    simp only [isAnkerEufyDevice]
    rw [h]

/-- C9: when the neighbour table is empty, a reachable scanned host with the
control port 6668 open still appears in the `discoverDevices` output, but with
`mac` and `vendor` undefined and `isLikelyRoboVac = false`. -/
theorem c9_empty_neighbor_table (env : ScanEnv)
    (harp : getArpTable env.platform env.arpCmd env.arpLineMatch = [])
    (ip : String) (hip : ip ∈ ipsToScan (getLocalNetworkRange env.interfaces))
    (hping : pingHost (env.ping ip) = true)
    (hport : scanPort (env.connect ip 6668) = true) :
    ∃ d ∈ discoverDevices env,
      d.ip = ip ∧ d.mac = none ∧ d.vendor = none ∧ d.isLikelyRoboVac = false ∧
        6668 ∈ d.ports := by
  have h6668 : (6668 : Nat) ∈ openPortsOf env ip := by
    rw [openPortsOf_eq]
    exact List.mem_filter.2 ⟨by decide, hport⟩
  have hne : openPortsOf env ip ≠ [] := List.ne_nil_of_mem h6668
  have hm : mapGet (getArpTable env.platform env.arpCmd env.arpLineMatch) ip = none := by
    rw [harp]
    rfl
  have hprobe := probeHost_some_of env (getArpTable env.platform env.arpCmd env.arpLineMatch)
    ip hping hne
  rw [hm] at hprobe
  simp only [Bool.false_and, if_neg Bool.false_ne_true] at hprobe
  exact ⟨_, mem_discoverDevices.2 (mem_discoverRaw.2 ⟨ip, hip, hprobe⟩),
    rfl, rfl, rfl, rfl, h6668⟩

/-- C10: for every device returned by `discoverDevices`, the vendor field is
defined exactly when the MAC is defined and matches the fixed OUI list, in
which case it is the constant label `"Anker/Eufy"`; a defined vendor implies a
defined MAC. -/
theorem c10_vendor_invariant (env : ScanEnv) (d : NetworkDevice)
    (hd : d ∈ discoverDevices env) :
    d.vendor = (if (match d.mac with
        | some m => isAnkerEufyDevice m
        | none => false) then some "Anker/Eufy" else none) ∧
    (d.vendor.isSome = true ↔ ∃ m, d.mac = some m ∧ isAnkerEufyDevice m = true) ∧
    (∀ v, d.vendor = some v → v = "Anker/Eufy") ∧
    (d.vendor.isSome = true → d.mac.isSome = true) := by
  obtain ⟨ip, hip, hping, hne, hdEq⟩ := discoverDevices_shape hd
  subst hdEq
  cases hm : mapGet (getArpTable env.platform env.arpCmd env.arpLineMatch) ip with
  | none => simp [hm]
  | some m =>
    cases ha : isAnkerEufyDevice m with
    | false => simp [hm, ha]
    | true =>
      refine ⟨by simp [hm, ha], ?_, ?_, ?_⟩
      · simp [hm, ha]
      · intro v hv
        simp [hm, ha] at hv
        exact hv.symm
      · intro _
        simp [hm]

/-- Witness for C3 at the concrete environment `envW`. -/
theorem c3_witness :
    deviceW.isLikelyRoboVac = (deviceW.vendor.isSome && deviceW.ports.contains 6668) :=
  (c3_isLikely_definition envW deviceW (by decide)).1

/-- Witness for C4 at the concrete environment `envW`. -/
theorem c4_witness :
    pingHost (envW.ping deviceW.ip) = true ∧ deviceW.ports ≠ [] :=
  ⟨(c4_output_invariants envW deviceW (by decide)).1,
   (c4_output_invariants envW deviceW (by decide)).2.1⟩

/-- Witness for C8: the upper-case and lower-case spellings of the same MAC
match identically. -/
theorem c8_witness :
    isAnkerEufyDevice "34:EA:34:11:22:33" = isAnkerEufyDevice "34:ea:34:11:22:33" :=
  c8_vendor_matching.2.1 "34:EA:34:11:22:33" "34:ea:34:11:22:33" (by decide)

/-- Witness for C9 at the concrete environment `envW9` (unsupported platform,
hence an empty neighbour table) and host `192.168.1.1`. -/
theorem c9_witness :
    ∃ d ∈ discoverDevices envW9,
      d.ip = "192.168.1.1" ∧ d.mac = none ∧ d.vendor = none ∧
        d.isLikelyRoboVac = false ∧ 6668 ∈ d.ports :=
  c9_empty_neighbor_table envW9 (by decide) "192.168.1.1" (by decide) (by decide) (by decide)

/-- Witness for C10 at the concrete environment `envW`. -/
theorem c10_witness :
    deviceW.vendor = (if (match deviceW.mac with
        | some m => isAnkerEufyDevice m
        | none => false) then some "Anker/Eufy" else none) :=
  (c10_vendor_invariant envW deviceW (by decide)).1
